import Mathlib

/-!
Verification of the YearCompass local persistence layer (`src/js/storage.js`)
against its natural-language specification.

The storage module manipulates values produced by `JSON.parse` and plain
object literals.  We embed the fragment of JavaScript values that the
persistence layer's data model actually uses: `null`, booleans, integer
numbers, strings, and string-keyed objects with insertion-ordered keys.
Arrays and fractional numbers never occur in the application's persisted
data and are outside the embedding; all JSON-parsing facts proved below are
stated on concrete inputs inside this fragment.
-/

/-- A JavaScript/JSON value in the fragment used by the storage layer. -/
inductive JSValue where
  | null : JSValue
  | bool : Bool → JSValue
  | num : Int → JSValue
  | str : String → JSValue
  | obj : List (String × JSValue) → JSValue

/-- Look up a key in an insertion-ordered field list (first match wins,
mirroring JavaScript property lookup; `none` models `undefined`). -/
def objGet {α : Type} (fs : List (String × α)) (k : String) : Option α :=
  match fs with
  | [] => none
  | (k', v) :: rest => if k' = k then some v else objGet rest k

/-- Set a key in an insertion-ordered field list: an existing key keeps its
position and gets the new value, a fresh key is appended (JavaScript
property-assignment order semantics). -/
def objSet {α : Type} (fs : List (String × α)) (k : String) (v : α) :
    List (String × α) :=
  match fs with
  | [] => [(k, v)]
  | (k', v') :: rest =>
    if k' = k then (k', v) :: rest else (k', v') :: objSet rest k v

/-- Remove a key from a field list (JavaScript `delete`). -/
def objDel {α : Type} (fs : List (String × α)) (k : String) :
    List (String × α) :=
  match fs with
  | [] => []
  | (k', v') :: rest =>
    if k' = k then objDel rest k else (k', v') :: objDel rest k

/-- Property access `v[k]`; `none` models `undefined`.  Property access on
primitives yields `undefined` in JavaScript for the keys used by this
module; access on `null` throws, which callers model explicitly. -/
def JSValue.getField : JSValue → String → Option JSValue
  | .obj fs, k => objGet fs k
  | _, _ => none

/-- Property assignment `v[k] = x` on an object.  All call sites in the
embedded module guard that the receiver is an object, so the primitive
cases (which would throw a strict-mode `TypeError`) are left as identity
and are unreachable from the guarded call sites. -/
def JSValue.setField : JSValue → String → JSValue → JSValue
  | .obj fs, k, v => .obj (objSet fs k v)
  | base, _, _ => base

/-- `delete v[k]` on an object. -/
def JSValue.delField : JSValue → String → JSValue
  | .obj fs, k => .obj (objDel fs k)
  | base, _ => base

/-- `Object.keys` (insertion order for the string-keyed objects modelled
here). -/
def JSValue.objKeys : JSValue → List String
  | .obj fs => fs.map (fun p => p.1)
  | _ => []

/-- `Object.values`. -/
def JSValue.objValues : JSValue → List JSValue
  | .obj fs => fs.map (fun p => p.2)
  | _ => []

/-- JavaScript truthiness. -/
def JSValue.truthy : JSValue → Bool
  | .null => false
  | .bool b => b
  | .num n => n ≠ 0
  | .str s => s ≠ ""
  | .obj _ => true

/-- JavaScript `typeof`. -/
def JSValue.jsTypeof : JSValue → String
  | .null => "object"
  | .bool _ => "boolean"
  | .num _ => "number"
  | .str _ => "string"
  | .obj _ => "object"

/-- Truthiness of a possibly-`undefined` value (`undefined` is falsy). -/
def truthyOpt : Option JSValue → Bool
  | none => false
  | some v => v.truthy

/-- The check `x && typeof x === 'object'` applied to a
possibly-`undefined` value: true exactly for (non-null) objects. -/
def objLikeOpt : Option JSValue → Bool
  | some (.obj _) => true
  | _ => false

/-- The check `typeof x === 'number'` on a possibly-`undefined` value. -/
def isNumOpt : Option JSValue → Bool
  | some (.num _) => true
  | _ => false

/-- Is this value `null`? -/
def JSValue.isNull : JSValue → Bool
  | .null => true
  | _ => false

/-- `ToString` coercion used by JavaScript property-key conversion
(`years[x]` for non-string `x`). -/
def jsToPropertyKey : JSValue → String
  | .str s => s
  | .num n => toString n
  | .bool true => "true"
  | .bool false => "false"
  | .null => "null"
  | .obj _ => "[object Object]"

/-- The whitespace characters removed by JavaScript `String.prototype.trim`
(the ASCII ones plus the common Unicode space characters). -/
def jsIsWhitespace (c : Char) : Bool :=
  [0x9, 0xa, 0xb, 0xc, 0xd, 0x20, 0xa0, 0xfeff, 0x1680, 0x2000, 0x2001,
   0x2002, 0x2003, 0x2004, 0x2005, 0x2006, 0x2007, 0x2008, 0x2009, 0x200a,
   0x2028, 0x2029, 0x202f, 0x205f, 0x3000].contains c.toNat

/-- JavaScript `s.trim()`. -/
def jsTrim (s : String) : String :=
  ((s.toList.dropWhile jsIsWhitespace).reverse.dropWhile
    jsIsWhitespace).reverse.asString

/-- Auxiliary for `jsReplaceFirst`: replace the first occurrence of `pat`
in the character list. -/
def replaceFirstAux (pat rep : List Char) : List Char → List Char
  | [] => []
  | c :: rest =>
    if pat.isPrefixOf (c :: rest) then rep ++ (c :: rest).drop pat.length
    else c :: replaceFirstAux pat rep rest

/-- JavaScript `s.replace(pat, rep)` with a string pattern: replaces only
the first occurrence. -/
def jsReplaceFirst (s pat rep : String) : String :=
  if pat = "" then rep ++ s
  else (replaceFirstAux pat.toList rep.toList s.toList).asString

/-- Lowercase hex digit. -/
def hexDigitChar (n : Nat) : Char :=
  if n < 10 then Char.ofNat (48 + n) else Char.ofNat (87 + (n % 6))

/-- The escape `JSON.stringify` applies to one character of a string:
quote and backslash are backslash-escaped, the named control characters
use their short escapes, other control characters use a `\u00xx` escape,
and everything else is emitted verbatim. -/
def escChar (c : Char) : List Char :=
  if c = '"' then ['\\', '"']
  else if c = '\\' then ['\\', '\\']
  else if c = '\x08' then ['\\', 'b']
  else if c = '\x0c' then ['\\', 'f']
  else if c = '\n' then ['\\', 'n']
  else if c = '\r' then ['\\', 'r']
  else if c = '\t' then ['\\', 't']
  else if c.toNat < 0x20 then
    ['\\', 'u', '0', '0', hexDigitChar (c.toNat / 16), hexDigitChar (c.toNat % 16)]
  else [c]

/-- A JSON string literal for `s`, as produced by `JSON.stringify`. -/
def encodeJSONString (s : String) : String :=
  ("\"".toList ++ (s.toList.map escChar).flatten ++ "\"".toList).asString

mutual

/-- `JSON.stringify(v)` (compact form, as used by `saveToLocalStorage`). -/
def jsStringify : JSValue → String
  | .null => "null"
  | .bool true => "true"
  | .bool false => "false"
  | .num n => toString n
  | .str s => encodeJSONString s
  | .obj fs => "\x7b" ++ jsStringifyFields fs ++ "\x7d"

/-- Compact serialization of an object's fields. -/
def jsStringifyFields : List (String × JSValue) → String
  | [] => ""
  | [(k, v)] => encodeJSONString k ++ ":" ++ jsStringify v
  | (k, v) :: rest =>
    encodeJSONString k ++ ":" ++ jsStringify v ++ "," ++ jsStringifyFields rest

end

/-- `d` spaces of indentation. -/
def indentStr (d : Nat) : String :=
  (List.replicate d ' ').asString

mutual

/-- `JSON.stringify(v, null, 2)` (pretty-printed form, as used by
`exportData`); `d` is the current indentation depth in units of two
spaces. -/
def jsStringifyP (d : Nat) : JSValue → String
  | .null => "null"
  | .bool true => "true"
  | .bool false => "false"
  | .num n => toString n
  | .str s => encodeJSONString s
  | .obj [] => "\x7b\x7d"
  | .obj (f :: fs) =>
    "\x7b\n" ++ jsStringifyPFields d (f :: fs) ++ "\n" ++
      indentStr (2 * d) ++ "\x7d"

/-- Pretty serialization of an object's fields, one per line. -/
def jsStringifyPFields (d : Nat) : List (String × JSValue) → String
  | [] => ""
  | [(k, v)] =>
    indentStr (2 * (d + 1)) ++ encodeJSONString k ++ ": " ++
      jsStringifyP (d + 1) v
  | (k, v) :: rest =>
    indentStr (2 * (d + 1)) ++ encodeJSONString k ++ ": " ++
      jsStringifyP (d + 1) v ++ ",\n" ++ jsStringifyPFields d rest

end

/-- The JSON whitespace characters (those `JSON.parse` skips). -/
def jsonWs (c : Char) : Bool :=
  c = ' ' || c = '\t' || c = '\n' || c = '\r'

/-- Value of a hex digit, if any. -/
def hexVal (c : Char) : Option Nat :=
  if '0' ≤ c ∧ c ≤ '9' then some (c.toNat - 48)
  else if 'a' ≤ c ∧ c ≤ 'f' then some (c.toNat - 87)
  else if 'A' ≤ c ∧ c ≤ 'F' then some (c.toNat - 55)
  else none

/-- Parse the body of a JSON string literal (after the opening quote),
returning the decoded characters and the remaining input.  `\uXXXX`
escapes outside the surrogate range decode to the corresponding character;
surrogate escapes are outside the modelled fragment and are rejected. -/
def parseJSONStringBody : List Char → Option (List Char × List Char)
  | [] => none
  | '"' :: rest => some ([], rest)
  | '\\' :: esc :: rest =>
    if esc = 'u' then
      match rest with
      | a :: b :: c :: d :: rest' =>
        match hexVal a, hexVal b, hexVal c, hexVal d with
        | some ha, some hb, some hc, some hd =>
          let n := ((ha * 16 + hb) * 16 + hc) * 16 + hd
          if 0xd800 ≤ n ∧ n ≤ 0xdfff then none
          else
            match parseJSONStringBody rest' with
            | some (cs, rem) => some (Char.ofNat n :: cs, rem)
            | none => none
        | _, _, _, _ => none
      | _ => none
    else
      let dec : Option Char :=
        if esc = '"' then some '"'
        else if esc = '\\' then some '\\'
        else if esc = '/' then some '/'
        else if esc = 'b' then some '\x08'
        else if esc = 'f' then some '\x0c'
        else if esc = 'n' then some '\n'
        else if esc = 'r' then some '\r'
        else if esc = 't' then some '\t'
        else none
      match dec with
      | none => none
      | some c =>
        match parseJSONStringBody rest with
        | some (cs, rem) => some (c :: cs, rem)
        | none => none
  | c :: rest =>
    if c.toNat < 0x20 then none
    else
      match parseJSONStringBody rest with
      | some (cs, rem) => some (c :: cs, rem)
      | none => none

/-- Parse a run of decimal digits. -/
def parseDigits : List Char → List Char × List Char
  | [] => ([], [])
  | c :: rest =>
    if '0' ≤ c ∧ c ≤ '9' then
      let (ds, rem) := parseDigits rest
      (c :: ds, rem)
    else ([], c :: rest)

/-- Digits to a natural number. -/
def digitsToNat (ds : List Char) : Nat :=
  ds.foldl (fun acc c => acc * 10 + (c.toNat - 48)) 0

/-- Parse a JSON integer numeral (optional minus sign, no leading zeros;
fractional and exponent forms are outside the modelled fragment). -/
def parseJSONInt : List Char → Option (Int × List Char)
  | [] => none
  | c :: rest =>
    let (neg, body) : Bool × List Char :=
      if c = '-' then (true, rest) else (false, c :: rest)
    match parseDigits body with
    | ([], _) => none
    | (d :: ds, rem) =>
      if d = '0' ∧ ds ≠ [] then none
      else
        let n : Int := Int.ofNat (digitsToNat (d :: ds))
        some (if neg then -n else n, rem)

mutual

/-- Parse one JSON value (fuelled recursive descent over the modelled
fragment: `null`, booleans, integer numerals, strings, objects). -/
def parseJSONValue (fuel : Nat) (cs : List Char) :
    Option (JSValue × List Char) :=
  match fuel with
  | 0 => none
  | fuel + 1 =>
    match cs.dropWhile jsonWs with
    | 'n' :: 'u' :: 'l' :: 'l' :: rest => some (.null, rest)
    | 't' :: 'r' :: 'u' :: 'e' :: rest => some (.bool true, rest)
    | 'f' :: 'a' :: 'l' :: 's' :: 'e' :: rest => some (.bool false, rest)
    | '"' :: rest =>
      match parseJSONStringBody rest with
      | some (body, rem) => some (.str body.asString, rem)
      | none => none
    | '\x7b' :: rest =>
      match (rest.dropWhile jsonWs) with
      | '\x7d' :: rem => some (.obj [], rem)
      | other => parseJSONMembers fuel other []
    | other =>
      match parseJSONInt other with
      | some (n, rem) => some (.num n, rem)
      | none => none

/-- Parse the members of a JSON object (positioned at the start of a key),
accumulating fields with JavaScript duplicate-key semantics (the first
occurrence keeps its position, the last value wins). -/
def parseJSONMembers (fuel : Nat) (cs : List Char)
    (acc : List (String × JSValue)) : Option (JSValue × List Char) :=
  match fuel with
  | 0 => none
  | fuel + 1 =>
    match cs with
    | '"' :: rest =>
      match parseJSONStringBody rest with
      | none => none
      | some (key, rem) =>
        match rem.dropWhile jsonWs with
        | ':' :: remA =>
          match parseJSONValue fuel remA with
          | none => none
          | some (v, remB) =>
            let accB := objSet acc key.asString v
            match remB.dropWhile jsonWs with
            | ',' :: remC => parseJSONMembers fuel (remC.dropWhile jsonWs) accB
            | '\x7d' :: remC => some (.obj accB, remC)
            | _ => none
        | _ => none
    | _ => none

end

/-- `JSON.parse` over the modelled fragment: parse one value and require
only trailing whitespace after it. -/
def jsonParse (s : String) : Option JSValue :=
  let cs := s.toList
  match parseJSONValue (cs.length + 1) cs with
  | some (v, rest) => if rest.dropWhile jsonWs = [] then some v else none
  | none => none

/-! ## The storage module (`src/js/storage.js`) -/

/-- `DATA_VERSION`. -/
def DATA_VERSION : Int := 1

/-- `STORAGE_KEY`. -/
def STORAGE_KEY : String := "yearcompass_data"

/-- The sentinel key used by the availability probe. -/
def TEST_KEY : String := "__yearcompass_test__"

/-- The default `settings` object of `getDefaultData`. -/
def defaultSettings : JSValue :=
  .obj [("theme", .str "light"), ("fontSize", .str "medium"),
        ("markdownPreview", .str "onBlur")]

/-- `getDefaultData()`. -/
def getDefaultData : JSValue :=
  .obj [("version", .num DATA_VERSION), ("currentYear", .null),
        ("settings", defaultSettings), ("years", .obj [])]

/-- The result object of `validateAndRepairData`. -/
structure VRDResult where
  valid : Bool
  repaired : Bool
  data : JSValue

/-- The fresh section created when a malformed section entry is replaced:
`{ completed: false, answers: {} }`. -/
def freshSection : JSValue :=
  .obj [("completed", .bool false), ("answers", .obj [])]

/-- One iteration of the section-validation loop in `validateAndRepairData`:
`const section = year.sections[sectionId]; if (!section || typeof section
!== 'object') { replace with fresh } else if (!section.answers || typeof
section.answers !== 'object') { section.answers = {} }`.  In the modelled
fragment, "truthy and typeof object" is exactly "is an object", i.e.
`objLikeOpt`. -/
def repairSectionStep (year : JSValue) (sid : String) : JSValue × Bool :=
  let sections := (year.getField "sections").getD .null
  let sec := sections.getField sid
  if ¬ objLikeOpt sec then
    (year.setField "sections" (sections.setField sid freshSection), true)
  else
    let s := sec.getD .null
    if ¬ objLikeOpt (s.getField "answers") then
      (year.setField "sections"
        (sections.setField sid (s.setField "answers" (.obj []))), true)
    else (year, false)

/-- Accumulating form of `repairSectionStep` used by the section loop:
carries the year being repaired and the or-accumulated `repaired` flag. -/
def sectionsFoldStep (acc : JSValue × Bool) (sid : String) : JSValue × Bool :=
  let (y', r') := repairSectionStep acc.1 sid
  (y', acc.2 || r')

/-- The four silent backfills of the year-validation loop (`id`,
`displayName`, `createdAt`, `lastModified`): they coerce missing/falsy
fields but do not touch the `repaired` flag in the source. -/
def backfillYear (now : String) (yearId : String) (year0 : JSValue) :
    JSValue :=
  let year := if truthyOpt (year0.getField "id") then year0
    else year0.setField "id" (.str yearId)
  let year := if truthyOpt (year.getField "displayName") then year
    else year.setField "displayName" (.str (jsReplaceFirst yearId "-" " → "))
  let year := if truthyOpt (year.getField "createdAt") then year
    else year.setField "createdAt" (.str now)
  if truthyOpt (year.getField "lastModified") then year
  else year.setField "lastModified" ((year.getField "createdAt").getD .null)

/-- The per-year body of the validation loop, for a year entry that
survived the object check: the silent backfills, the `sections` coercion,
and the section loop.  Returns the repaired year and whether any flagged
coercion fired. -/
def repairYear (now : String) (yearId : String) (year0 : JSValue) :
    JSValue × Bool :=
  let year := backfillYear now yearId year0
  let start : JSValue × Bool :=
    if ¬ objLikeOpt (year.getField "sections") then
      (year.setField "sections" (.obj []), true)
    else (year, false)
  let keys := ((start.1.getField "sections").getD .null).objKeys
  keys.foldl sectionsFoldStep start

/-- One iteration of the year-validation loop: a non-object entry is
deleted (with `repaired = true`), an object entry is repaired in place by
`repairYear`. -/
def yearsStep (now : String) (acc : JSValue × Bool) (yearId : String) :
    JSValue × Bool :=
  let (d, r) := acc
  let years := (d.getField "years").getD .null
  let y? := years.getField yearId
  if ¬ objLikeOpt y? then
    (d.setField "years" (years.delField yearId), true)
  else
    let (y', r') := repairYear now yearId (y?.getD .null)
    (d.setField "years" (years.setField yearId y'), r || r')

/-- The message reported when the top-level input is rejected. -/
def corruptMsg : String := "Stored data is not a valid object. Starting fresh."

/-- The `quota` report message of `saveToLocalStorage`. -/
def quotaMsg : String :=
  "Storage is full. Please export your data and clear old entries to continue saving."

/-- The `save` report message of `saveToLocalStorage`. -/
def saveFailMsg : String :=
  "Failed to save your progress. Please try again or export your data."

/-- The `unavailable` report message of `initStorage`. -/
def unavailableMsg : String :=
  "Local storage is not available. Your browser may be in private mode or have storage disabled. Your progress cannot be saved."

/-- The `parse` report message of `initStorage`. -/
def parseMsg : String :=
  "Your saved data appears to be corrupted. Starting with a fresh workspace."

/-- `importData`: message for unparseable input. -/
def importNotJsonMsg : String := "The file is not valid JSON data."

/-- `importData`: message for invalid (non-object) input. -/
def importInvalidMsg : String := "The imported data is not valid YearCompass data."

/-- `importData`: message for a failed persist. -/
def importNoSaveMsg : String := "Could not save imported data. Storage may be full."

/-- `importData`: success message. -/
def importOkMsg : String := "Data imported successfully."

/-- `validateAndRepairData(data)`.  `now` stands for
`new Date().toISOString()` at the time of the call.  The second component
collects the `reportStorageError` invocations the call makes (one
`corrupt` report when the input is rejected, none otherwise). -/
def validateAndRepairData (now : String) (data0 : JSValue) :
    VRDResult × List (String × String) :=
  if ¬ (data0.truthy ∧ data0.jsTypeof = "object") then
    ({ valid := false, repaired := false, data := getDefaultData },
     [("corrupt", corruptMsg)])
  else
    let step1 : JSValue × Bool :=
      if ¬ isNumOpt (data0.getField "version") then
        (data0.setField "version" (.num DATA_VERSION), true)
      else (data0, false)
    let step2 : JSValue × Bool :=
      if ¬ objLikeOpt (step1.1.getField "settings") then
        (step1.1.setField "settings" defaultSettings, true)
      else (step1.1, false)
    let step3 : JSValue × Bool :=
      if ¬ objLikeOpt (step2.1.getField "years") then
        (step2.1.setField "years" (.obj []), true)
      else (step2.1, false)
    let step4 : JSValue × Bool :=
      let d := step3.1
      let cy := d.getField "currentYear"
      if truthyOpt cy ∧
          ¬ truthyOpt (((d.getField "years").getD .null).getField
            (jsToPropertyKey (cy.getD .null))) then
        let yearIds := ((d.getField "years").getD .null).objKeys
        (d.setField "currentYear"
          (match yearIds.getLast? with
           | some k => .str k
           | none => .null), true)
      else (d, false)
    let keys := ((step4.1.getField "years").getD .null).objKeys
    let step5 : JSValue × Bool := keys.foldl (yearsStep now) (step4.1, false)
    ({ valid := true,
       repaired := step1.2 || step2.2 || step3.2 || step4.2 || step5.2,
       data := step5.1 }, [])

/-- The error signature a failing backend write reports: the code
distinguishes quota-exceeded conditions (`QuotaExceededError`, code 22,
code 1014, `NS_ERROR_DOM_QUOTA_REACHED`) from all other write failures. -/
inductive SetErr where
  | quota : SetErr
  | other : SetErr

/-- The durable key-value backend (`localStorage`): current contents, a
behaviour function saying whether a given `setItem` call throws, and a log
of the successful writes (for counting writes). -/
structure Backend where
  store : List (String × String)
  setFailure : String → String → Option SetErr
  writes : List (String × String)

/-- `localStorage.getItem`. -/
def Backend.getItem (b : Backend) (k : String) : Option String :=
  objGet b.store k

/-- `localStorage.setItem`: throws according to `setFailure`, otherwise
stores the value and logs the write. -/
def Backend.setItem (b : Backend) (k v : String) : Except SetErr Backend :=
  match b.setFailure k v with
  | some e => .error e
  | none =>
    .ok { b with store := objSet b.store k v, writes := b.writes ++ [(k, v)] }

/-- `localStorage.removeItem`. -/
def Backend.removeItem (b : Backend) (k : String) : Backend :=
  { b with store := objDel b.store k }

/-- The state of the storage module: the backend, the in-memory cache
`storageData` (`none` models the JavaScript `null` it is initialised to),
the sequence of `reportStorageError` invocations (delivered to the
registered error callback), and the pending debounce deadline of
`debouncedSave` (`none` when no timer is pending). -/
structure StoreState where
  backend : Backend
  storageData : Option JSValue
  reports : List (String × String)
  deadline : Option Nat

/-- `reportStorageError(type, message)` as seen by the registered
callback. -/
def reportStorageError (st : StoreState) (t m : String) : StoreState :=
  { st with reports := st.reports ++ [(t, m)] }

/-- `isLocalStorageAvailable()`: write/read/delete probe with a sentinel
key; any throw yields `false`. -/
def isLocalStorageAvailable (st : StoreState) : Bool × StoreState :=
  match st.backend.setItem TEST_KEY "test" with
  | .error _ => (false, st)
  | .ok b1 =>
    let result := b1.getItem TEST_KEY
    let b2 := b1.removeItem TEST_KEY
    (result = some "test", { st with backend := b2 })

/-- `saveToLocalStorage()`: serializes the in-memory document and writes
it under `STORAGE_KEY`; returns `false` without throwing on failure,
reporting `quota` for quota-exceeded signatures and `save` otherwise. -/
def saveToLocalStorage (st : StoreState) : Bool × StoreState :=
  let (avail, st) := isLocalStorageAvailable st
  if ¬ avail then (false, st)
  else
    let dataString := jsStringify (st.storageData.getD .null)
    match st.backend.setItem STORAGE_KEY dataString with
    | .ok b => (true, { st with backend := b })
    | .error .quota => (false, reportStorageError st "quota" quotaMsg)
    | .error .other => (false, reportStorageError st "save" saveFailMsg)

/-- `initStorage()`: loads and validates the stored record, or creates a
fresh default document.  Returns the document the function returns,
together with the updated state (`storageData` is the in-memory cache).
The source's outer `try/catch` (`unknown` report) guards failures that
cannot occur in this model, so that branch is unreachable here.  The
`if (stored)` truthiness test treats an empty stored string like a missing
record. -/
def initStorage (now : String) (st : StoreState) : JSValue × StoreState :=
  let (avail, st) := isLocalStorageAvailable st
  if ¬ avail then
    let st := reportStorageError st "unavailable" unavailableMsg
    (getDefaultData, { st with storageData := some getDefaultData })
  else
    match st.backend.getItem STORAGE_KEY with
    | some stored =>
      if stored = "" then
        let st := { st with storageData := some getDefaultData }
        let (_, st) := saveToLocalStorage st
        (getDefaultData, st)
      else
        match jsonParse stored with
        | none =>
          let st := reportStorageError st "parse" parseMsg
          let st := { st with storageData := some getDefaultData }
          let (_, st) := saveToLocalStorage st
          (getDefaultData, st)
        | some parsed =>
          let (r, reps) := validateAndRepairData now parsed
          let st := { st with reports := st.reports ++ reps,
                              storageData := some r.data }
          let st := if r.repaired then (saveToLocalStorage st).2 else st
          (r.data, st)
    | none =>
      let st := { st with storageData := some getDefaultData }
      let (_, st) := saveToLocalStorage st
      (getDefaultData, st)

/-- `exportData()`: pretty-printed serialization of the in-memory
document. -/
def exportData (st : StoreState) : String :=
  jsStringifyP 0 (st.storageData.getD .null)

/-- `importData(jsonString)`: parse, validate-and-repair, replace the
in-memory document, persist.  Returns the `{success, message}` result and
the updated state. -/
def importData (now : String) (jsonString : String) (st : StoreState) :
    (Bool × String) × StoreState :=
  match jsonParse jsonString with
  | none => ((false, importNotJsonMsg), st)
  | some data =>
    let (r, reps) := validateAndRepairData now data
    let st := { st with reports := st.reports ++ reps }
    if ¬ r.valid then
      ((false, importInvalidMsg), st)
    else
      let st := { st with storageData := some r.data }
      let (saved, st) := saveToLocalStorage st
      if ¬ saved then
        ((false, importNoSaveMsg), st)
      else ((true, importOkMsg), st)

/-- `getCurrentYear()`: the active year entry or `null`.  `.error ()`
models the `TypeError` thrown when `storageData.years` is `undefined` or
`null` while `currentYear` is truthy (possible only on states that never
arise after `initStorage`). -/
def getCurrentYear (st : StoreState) : Except Unit (Option JSValue) :=
  match st.storageData with
  | none => .ok none
  | some d =>
    if ¬ truthyOpt (d.getField "currentYear") then .ok none
    else
      match d.getField "years" with
      | none => .error ()
      | some years =>
        if years.isNull then .error ()
        else
          let y? := years.getField
            (jsToPropertyKey ((d.getField "currentYear").getD .null))
          .ok (if truthyOpt y? then y? else none)

/-- The per-answer test of `isSectionStarted`:
`value && typeof value === 'string' && value.trim().length > 0`. -/
def answerFilled (v : JSValue) : Bool :=
  v.truthy && v.jsTypeof = "string" &&
    (match v with
     | .str s => jsTrim s ≠ ""
     | _ => false)

/-- `isSectionStarted(sectionId)`: true iff some answer of the current
year's section is a non-blank string.  A pure read: the state is not
modified (the embedding returns only the boolean).  `.error ()` models the
`TypeError` thrown when the current year exists but its `sections` is
`undefined` or `null` (the `?.` in the source only guards the year
itself). -/
def isSectionStarted (sectionId : String) (st : StoreState) :
    Except Unit Bool :=
  match getCurrentYear st with
  | .error _ => .error ()
  | .ok none => .ok false
  | .ok (some year) =>
    match year.getField "sections" with
    | none => .error ()
    | some sections =>
      if sections.isNull then .error ()
      else
        match sections.getField sectionId with
        | none => .ok false
        | some sec =>
          if sec.isNull then .ok false
          else
            let answers := sec.getField "answers"
            if ¬ truthyOpt answers then .ok false
            else .ok ((answers.getD .null).objValues.any answerFilled)

/-- `debouncedSave()` scheduled at clock time `t`: any pending timer is
cancelled and a new one is armed to fire 300 ms later. -/
def debouncedSave (t : Nat) (st : StoreState) : StoreState :=
  { st with deadline := some (t + 300) }

/-- The wall clock rendered as a timestamp string; stands for
`new Date().toISOString()` at clock time `t`. -/
def isoClock (t : Nat) : String :=
  toString t

/-- `saveAnswer(yearId, sectionId, fieldId, value)` called at clock time
`t`.  Absent year: silent no-op.  `.error ()` models the `TypeError`s the
source can throw on malformed state (null cache, missing `years`, a truthy
year without an object `sections`, or a truthy section whose `answers` is
not an object). -/
def saveAnswer (t : Nat) (yearId sectionId fieldId : String)
    (value : JSValue) (st : StoreState) : Except Unit StoreState :=
  match st.storageData with
  | none => .error ()
  | some d =>
    match d.getField "years" with
    | none => .error ()
    | some years =>
      if years.isNull then .error ()
      else
        let y? := years.getField yearId
        if ¬ truthyOpt y? then .ok st
        else
          let year := y?.getD .null
          match year.getField "sections" with
          | none => .error ()
          | some sections =>
            if sections.isNull then .error ()
            else
              let sec? := sections.getField sectionId
              let withSec : Except Unit (JSValue × JSValue) :=
                if ¬ truthyOpt sec? then
                  match sections with
                  | .obj _ =>
                    let sections' := sections.setField sectionId freshSection
                    .ok (sections', freshSection)
                  | _ => .error ()
                else
                  .ok (sections, sec?.getD .null)
              match withSec with
              | .error _ => .error ()
              | .ok (sections', sec) =>
                match sec.getField "answers" with
                | none => .error ()
                | some answers =>
                  match answers with
                  | .obj _ =>
                    let answers' := answers.setField fieldId value
                    let sec' := sec.setField "answers" answers'
                    let sections'' := sections'.setField sectionId sec'
                    let year' := (year.setField "sections" sections'').setField
                      "lastModified" (.str (isoClock t))
                    let years' := years.setField yearId year'
                    let d' := d.setField "years" years'
                    .ok (debouncedSave t { st with storageData := some d' })
                  | _ => .error ()

/-- Fire the pending debounced write if its deadline has been reached by
clock time `t` (the timer callback runs `saveToLocalStorage()` and clears
the timer handle). -/
def fireDue (t : Nat) (st : StoreState) : StoreState :=
  match st.deadline with
  | some dl =>
    if dl ≤ t then (saveToLocalStorage { st with deadline := none }).2
    else st
  | none => st

/-- Deliver one `saveAnswer` event at clock time `t`: any due timer fires
first (single-threaded event loop), then the call runs. -/
def saveAnswerEvent (yearId sectionId fieldId : String)
    (st : Except Unit StoreState) (c : Nat × JSValue) :
    Except Unit StoreState :=
  match st with
  | .error _ => .error ()
  | .ok s => saveAnswer c.1 yearId sectionId fieldId c.2 (fireDue c.1 s)

/-- Run a burst of `saveAnswer` calls to one field (pairs of clock time
and value), then let the clock reach `end_` (firing the trailing
debounce timer if due). -/
def runBurst (yearId sectionId fieldId : String)
    (calls : List (Nat × JSValue)) (end_ : Nat) (st : StoreState) :
    Except Unit StoreState :=
  match calls.foldl (saveAnswerEvent yearId sectionId fieldId) (.ok st) with
  | .error _ => .error ()
  | .ok s => .ok (fireDue end_ s)

/-! ## Basic lemmas about the object operations -/

theorem objGet_objSet_self {α : Type} (fs : List (String × α)) (k : String)
    (v : α) : objGet (objSet fs k v) k = some v := by
  induction fs with
  | nil => simp [objSet, objGet]
  | cons p rest ih =>
    obtain ⟨k', v'⟩ := p
    by_cases h : k' = k <;> simp [objSet, objGet, h, ih]

theorem objGet_objSet_ne {α : Type} (fs : List (String × α)) (k k' : String)
    (v : α) (h : k' ≠ k) : objGet (objSet fs k v) k' = objGet fs k' := by
  induction fs with
  | nil =>
    have : ¬ k = k' := fun hh => h hh.symm
    simp [objSet, objGet, this]
  | cons p rest ih =>
    obtain ⟨k₀, v₀⟩ := p
    by_cases hk : k₀ = k
    · subst hk
      have : ¬ k₀ = k' := fun hh => h hh.symm
      simp [objSet, objGet, this]
    · simp [objSet, objGet, hk, ih]

theorem objGet_objDel_ne {α : Type} (fs : List (String × α)) (k k' : String)
    (h : k' ≠ k) : objGet (objDel fs k) k' = objGet fs k' := by
  induction fs with
  | nil => simp [objDel]
  | cons p rest ih =>
    obtain ⟨k₀, v₀⟩ := p
    by_cases hk : k₀ = k
    · subst hk
      have : ¬ k₀ = k' := fun hh => h hh.symm
      simp [objDel, objGet, this, ih]
    · simp [objDel, objGet, hk, ih]

theorem objSet_self {α : Type} (fs : List (String × α)) (k : String) (v : α)
    (h : objGet fs k = some v) : objSet fs k v = fs := by
  induction fs with
  | nil => simp [objGet] at h
  | cons p rest ih =>
    obtain ⟨k₀, v₀⟩ := p
    by_cases hk : k₀ = k
    · subst hk
      simp [objGet] at h
      simp [objSet, h]
    · simp [objGet, hk] at h
      simp [objSet, hk, ih h]

/-! ## Concrete inputs used by the claims -/

/-- A stored document whose `currentYear` names a year entry that is
`null`: the entry is truthy-checked *before* the year loop deletes it. -/
def danglingInput : JSValue :=
  .obj [("currentYear", .str "y"), ("years", .obj [("y", .null)])]

/-- C1: after `validateAndRepairData` on `danglingInput`, the returned
document has `currentYear = "y"` while `years` is empty — the repaired
document violates the invariant that `currentYear`, if set, references a
key of `years`.  The `currentYear` check runs before malformed year
entries are dropped, so the drop re-creates the dangling reference the
check was meant to repair. -/
theorem c1_repair_leaves_dangling_currentYear :
    (validateAndRepairData "T" danglingInput).1.valid = true ∧
    (validateAndRepairData "T" danglingInput).1.data.getField "currentYear" =
      some (.str "y") ∧
    (validateAndRepairData "T" danglingInput).1.data.getField "years" =
      some (.obj []) :=
  ⟨rfl, rfl, rfl⟩

/-- C2: running `validateAndRepairData` a second time on the data returned
by a first run can report `repaired = true` again: the first pass on
`danglingInput` leaves a dangling `currentYear` (see C1), which the second
pass then repairs.  This refutes the claimed idempotence of the repaired
flag. -/
theorem c2_second_pass_repaired_true :
    (validateAndRepairData "T"
      (validateAndRepairData "T" danglingInput).1.data).1.repaired = true :=
  rfl

/-- The backend holding the literal corrupt record of claim C6. -/
def corruptBackend : Backend :=
  { store := [(STORAGE_KEY, "\x7bnot json")],
    setFailure := fun _ _ => none, writes := [] }

/-- A freshly-constructed store over `corruptBackend`. -/
def corruptState : StoreState :=
  { backend := corruptBackend, storageData := none, reports := [],
    deadline := none }

/-- C6: with the backend record `"\x7bnot json"`, `initStorage` reports a
`parse` error through the registered callback and returns the fresh
default document, whose `years` mapping is empty and whose `currentYear`
is null; the in-memory cache is set to that same default document. -/
theorem c6_corrupt_record_reports_parse_and_defaults :
    jsonParse "\x7bnot json" = none ∧
    (initStorage "T" corruptState).1 = getDefaultData ∧
    (initStorage "T" corruptState).2.reports = [("parse", parseMsg)] ∧
    (initStorage "T" corruptState).2.storageData = some getDefaultData ∧
    getDefaultData.getField "years" = some (.obj []) ∧
    getDefaultData.getField "currentYear" = some .null :=
  ⟨rfl, rfl, rfl, rfl, rfl, rfl⟩

/-- C10: `saveAnswer` for a `yearId` absent from the `years` mapping is a
silent no-op: the state is returned unchanged — same document, same
backend (no write, none scheduled: same debounce deadline), same reports
(no error callback invocation). -/
theorem c10_saveAnswer_unknown_year_noop (t : Nat)
    (yearId sectionId fieldId : String) (value : JSValue) (st : StoreState)
    (d : JSValue) (ym : List (String × JSValue))
    (hd : st.storageData = some d)
    (hy : d.getField "years" = some (.obj ym))
    (hk : objGet ym yearId = none) :
    saveAnswer t yearId sectionId fieldId value st = .ok st := by
  have hobj : ∀ (fs : List (String × JSValue)) (k : String),
      (JSValue.obj fs).getField k = objGet fs k := fun _ _ => rfl
  simp [saveAnswer, hd, hy, hobj, hk, JSValue.isNull, truthyOpt]

/-- A store whose in-memory cache is the default document (no years). -/
def stDemo : StoreState :=
  { backend := { store := [], setFailure := fun _ _ => none, writes := [] },
    storageData := some getDefaultData, reports := [], deadline := none }

/-- Witness for C10 at a concrete input: saving into the unknown year
`"2030-2031"` of the default document is a no-op. -/
theorem c10_witness :
    saveAnswer 5 "2030-2031" "intro" "a" (.str "v") stDemo = .ok stDemo :=
  c10_saveAnswer_unknown_year_noop 5 "2030-2031" "intro" "a" (.str "v")
    stDemo getDefaultData [] rfl rfl rfl

/-- C7: if the backend's `setItem` throws a quota-exceeded condition for
the record write (while the tiny sentinel probe still succeeds),
`saveToLocalStorage` returns `false` without throwing, reports `quota`
through the callback, and leaves both the in-memory document and the
stored record unchanged. -/
theorem c7_quota_write_fails_gracefully (st : StoreState)
    (hprobe : st.backend.setFailure TEST_KEY "test" = none)
    (hset : st.backend.setFailure STORAGE_KEY
      (jsStringify (st.storageData.getD .null)) = some .quota) :
    (saveToLocalStorage st).1 = false ∧
    (saveToLocalStorage st).2.storageData = st.storageData ∧
    (saveToLocalStorage st).2.reports = st.reports ++ [("quota", quotaMsg)] ∧
    (saveToLocalStorage st).2.backend.getItem STORAGE_KEY =
      st.backend.getItem STORAGE_KEY := by
  have hne : STORAGE_KEY ≠ TEST_KEY := by decide
  simp [saveToLocalStorage, isLocalStorageAvailable, Backend.setItem, hprobe,
    Backend.getItem, Backend.removeItem, objGet_objSet_self, hset,
    reportStorageError, objGet_objDel_ne _ _ _ hne,
    objGet_objSet_ne _ _ _ _ hne]

/-- A store whose backend rejects exactly the record write with a quota
signature. -/
def stQuota : StoreState :=
  { backend :=
      { store := [],
        setFailure := fun k _ => if k = STORAGE_KEY then some .quota else none,
        writes := [] },
    storageData := some getDefaultData, reports := [], deadline := none }

/-- Witness for C7 at a concrete store. -/
theorem c7_witness :
    (saveToLocalStorage stQuota).1 = false ∧
    (saveToLocalStorage stQuota).2.reports = [("quota", quotaMsg)] ∧
    (saveToLocalStorage stQuota).2.storageData = some getDefaultData := by
  have h := c7_quota_write_fails_gracefully stQuota rfl rfl
  exact ⟨h.1, by simpa using h.2.2.1, h.2.1⟩

/-- The per-answer test accepts exactly the strings whose trim is
non-empty. -/
theorem answerFilled_iff (v : JSValue) :
    answerFilled v = true ↔ ∃ s, v = .str s ∧ jsTrim s ≠ "" := by
  cases v with
  | str s =>
    constructor
    · intro h
      refine ⟨s, rfl, ?_⟩
      simp [answerFilled, JSValue.truthy, JSValue.jsTypeof] at h
      exact h.2
    · rintro ⟨s', hs', ht⟩
      cases hs'
      have hne : s ≠ "" := by
        intro h0
        subst h0
        exact ht rfl
      simp [answerFilled, JSValue.truthy, JSValue.jsTypeof, hne, ht]
  | null => simp [answerFilled]
  | bool b => simp [answerFilled, JSValue.jsTypeof]
  | num n => simp [answerFilled, JSValue.jsTypeof]
  | obj fs => simp [answerFilled, JSValue.jsTypeof]

/-- C9: `isSectionStarted` is a pure read (its embedding returns only the
boolean) and, for the current year's section with an object `answers`
mapping, it returns true exactly when some answer value is a string whose
trim is non-empty; for a section absent from `sections` it returns
false. -/
theorem c9_isSectionStarted_iff (st : StoreState) (sectionId : String)
    (year : JSValue) (ss : List (String × JSValue))
    (h1 : getCurrentYear st = .ok (some year))
    (h2 : year.getField "sections" = some (.obj ss)) :
    (∀ sec, objGet ss sectionId = some sec →
      ∀ l, sec.getField "answers" = some (.obj l) →
        isSectionStarted sectionId st =
          .ok ((l.map (fun p => p.2)).any answerFilled) ∧
        ((l.map (fun p => p.2)).any answerFilled = true ↔
          ∃ s, JSValue.str s ∈ l.map (fun p => p.2) ∧ jsTrim s ≠ "")) ∧
    (objGet ss sectionId = none →
      isSectionStarted sectionId st = .ok false) := by
  constructor
  · intro sec hsec l hl
    obtain ⟨sfs, rfl⟩ : ∃ sfs, sec = .obj sfs := by
      cases sec <;> simp [JSValue.getField] at hl ⊢
    constructor
    · have hobj : ∀ (fs : List (String × JSValue)) (k : String),
          (JSValue.obj fs).getField k = objGet fs k := fun _ _ => rfl
      rw [hobj] at hl
      simp [isSectionStarted, h1, h2, hobj, hsec, hl, JSValue.isNull,
        truthyOpt, JSValue.truthy, JSValue.objValues]
    · rw [List.any_eq_true]
      constructor
      · rintro ⟨v, hv, hfill⟩
        obtain ⟨s, rfl, hs⟩ := (answerFilled_iff v).1 hfill
        exact ⟨s, hv, hs⟩
      · rintro ⟨s, hs, hns⟩
        exact ⟨.str s, hs, (answerFilled_iff _).2 ⟨s, rfl, hns⟩⟩
  · intro hnone
    have hobj : ∀ (fs : List (String × JSValue)) (k : String),
        (JSValue.obj fs).getField k = objGet fs k := fun _ _ => rfl
    simp [isSectionStarted, h1, h2, hobj, hnone, JSValue.isNull]

/-- A store whose current year's section `"x"` holds the given answers
mapping. -/
def stStartedEx (ans : List (String × JSValue)) : StoreState :=
  { backend := { store := [], setFailure := fun _ _ => none, writes := [] },
    storageData := some (.obj
      [("currentYear", .str "y"),
       ("years", .obj
         [("y", .obj
           [("id", .str "y"),
            ("sections", .obj
              [("x", .obj
                [("completed", .bool false),
                 ("answers", .obj ans)])])])])]),
    reports := [], deadline := none }

/-- Witness for C9 at the claim's concrete examples: answers
`{"a": "  ", "b": "hello"}` started, answers `{"a": "   "}` not. -/
theorem c9_witness :
    isSectionStarted "x"
      (stStartedEx [("a", .str "  "), ("b", .str "hello")]) = .ok true ∧
    isSectionStarted "x" (stStartedEx [("a", .str "   ")]) = .ok false := by
  have h1 := (c9_isSectionStarted_iff
    (stStartedEx [("a", .str "  "), ("b", .str "hello")]) "x" _ _ rfl rfl).1
    _ rfl _ rfl
  have h2 := (c9_isSectionStarted_iff
    (stStartedEx [("a", .str "   ")]) "x" _ _ rfl rfl).1
    _ rfl _ rfl
  constructor
  · rw [h1.1]
    rfl
  · rw [h2.1]
    rfl

/-- `saveToLocalStorage` never modifies the in-memory document. -/
theorem saveToLocalStorage_storageData (st : StoreState) :
    (saveToLocalStorage st).2.storageData = st.storageData := by
  cases hf : st.backend.setFailure TEST_KEY "test" with
  | some e =>
    simp [saveToLocalStorage, isLocalStorageAvailable, Backend.setItem, hf]
  | none =>
    cases hf2 : st.backend.setFailure STORAGE_KEY
        (jsStringify (st.storageData.getD .null)) with
    | some e =>
      cases e <;>
        simp [saveToLocalStorage, isLocalStorageAvailable, Backend.setItem,
          Backend.getItem, Backend.removeItem, hf, hf2, reportStorageError,
          objGet_objSet_self]
    | none =>
      simp [saveToLocalStorage, isLocalStorageAvailable, Backend.setItem,
        Backend.getItem, Backend.removeItem, hf, hf2, objGet_objSet_self]

/-- A store whose backend rejects exactly the record write (non-quota
signature) and that holds no document yet. -/
def persistFailState : StoreState :=
  { backend :=
      { store := [],
        setFailure := fun k _ => if k = STORAGE_KEY then some .other else none,
        writes := [] },
    storageData := none, reports := [], deadline := none }

/-- C4 counterexample: importing the valid document `"{}"` into a store
whose persist fails returns `success = false`, yet the in-memory document
has been replaced (it was the JavaScript `null` before the call and is the
validated import afterwards) — a failed import is not all-or-nothing on
the persist-failure path. -/
theorem c4_counterexample_persist_failure_replaces :
    (importData "T" "\x7b\x7d" persistFailState).1.1 = false ∧
    persistFailState.storageData = none ∧
    (importData "T" "\x7b\x7d" persistFailState).2.storageData =
      some (validateAndRepairData "T" (.obj [])).1.data :=
  ⟨rfl, rfl, rfl⟩

/-- C4 (amended): `importData` leaves the in-memory document unchanged
when parsing fails or validation rejects the input, and returns
`success = false` there; but when validation succeeds the in-memory
document is replaced by the validated import *before* persisting, so a
persist failure returns `success = false` with the replacement already
visible. -/
theorem c4_amended_import_failure_effects (now s : String) (st : StoreState) :
    (jsonParse s = none →
      (importData now s st).1.1 = false ∧
      (importData now s st).2.storageData = st.storageData) ∧
    (∀ v, jsonParse s = some v →
      (validateAndRepairData now v).1.valid = false →
      (importData now s st).1.1 = false ∧
      (importData now s st).2.storageData = st.storageData) ∧
    (∀ v, jsonParse s = some v →
      (validateAndRepairData now v).1.valid = true →
      (importData now s st).2.storageData =
        some (validateAndRepairData now v).1.data) := by
  refine ⟨fun hn => ?_, fun v hv hvalid => ?_, fun v hv hvalid => ?_⟩
  · simp [importData, hn]
  · simp [importData, hv, hvalid]
  · simp only [importData, hv]
    simp only [hvalid, not_true, if_neg, ite_false, Bool.not_true]
    split <;> simp [saveToLocalStorage_storageData]

/-- Witness for C4's amended theorem at a concrete unparseable input. -/
theorem c4_witness :
    (importData "T" "not json" stDemo).1.1 = false ∧
    (importData "T" "not json" stDemo).2.storageData = stDemo.storageData :=
  (c4_amended_import_failure_effects "T" "not json" stDemo).1 rfl

/-! ## Well-formed documents (the data model of spec §3/§6) -/

/-- A value is present and a string. -/
def isStrOpt : Option JSValue → Bool
  | some (.str _) => true
  | _ => false

/-- A value is present and a non-empty (truthy) string. -/
def nonemptyStrOpt : Option JSValue → Bool
  | some (.str s) => s ≠ ""
  | _ => false

/-- Well-formed `settings`: an object whose `theme`, `fontSize` and
`markdownPreview` are strings. -/
def wfSettings : Option JSValue → Bool
  | some (.obj ss) =>
    isStrOpt (objGet ss "theme") && isStrOpt (objGet ss "fontSize") &&
      isStrOpt (objGet ss "markdownPreview")
  | _ => false

/-- Well-formed SectionEntry: an object with a boolean `completed` and an
object `answers` mapping. -/
def wfSec (s : JSValue) : Bool :=
  match s with
  | .obj fs =>
    (match objGet fs "completed" with
     | some (.bool _) => true
     | _ => false) && objLikeOpt (objGet fs "answers")
  | _ => false

/-- Well-formed YearEntry stored under key `k`: an object whose `id`
equals its key (non-empty), with non-empty `displayName`, `createdAt` and
`lastModified` strings, a string `currentSection`, and an object
`sections` of well-formed SectionEntries. -/
def wfYear (k : String) (y : JSValue) : Bool :=
  match y with
  | .obj fs =>
    (match objGet fs "id" with
     | some (.str s) => s = k && s ≠ ""
     | _ => false) &&
    nonemptyStrOpt (objGet fs "displayName") &&
    nonemptyStrOpt (objGet fs "createdAt") &&
    nonemptyStrOpt (objGet fs "lastModified") &&
    isStrOpt (objGet fs "currentSection") &&
    (match objGet fs "sections" with
     | some (.obj ss) => ss.all (fun p => wfSec p.2)
     | _ => false)
  | _ => false

/-- Well-formed RootDocument: numeric `version`, well-formed `settings`,
an object `years` mapping of well-formed YearEntries, and a `currentYear`
that is absent, null, or a (possibly empty, hence falsy) string key whose
entry exists. -/
def wfDoc (d : JSValue) : Bool :=
  match d with
  | .obj fs =>
    match objGet fs "years" with
    | some (.obj ys) =>
      isNumOpt (objGet fs "version") &&
      wfSettings (objGet fs "settings") &&
      ys.all (fun p => wfYear p.1 p.2) &&
      (match objGet fs "currentYear" with
       | none => true
       | some .null => true
       | some (.str k) => (k = "") || truthyOpt (objGet ys k)
       | _ => false)
    | _ => false
  | _ => false

/-! ## Validate-and-repair is the identity on well-formed documents -/

/-- A successful lookup pins the looked-up pair as a member. -/
theorem objGet_is_mem {α : Type} (fs : List (String × α)) (k : String)
    (v : α) (h : objGet fs k = some v) : (k, v) ∈ fs := by
  induction fs with
  | nil => simp [objGet] at h
  | cons p rest ih =>
    obtain ⟨k₀, v₀⟩ := p
    by_cases hk : k₀ = k
    · subst hk
      simp [objGet] at h
      simp [h]
    · simp [objGet, hk] at h
      simp [ih h]

/-- A key occurring in the key list has a value. -/
theorem objGet_of_mem_keys {α : Type} (fs : List (String × α)) (k : String)
    (h : k ∈ fs.map Prod.fst) : ∃ v, objGet fs k = some v := by
  induction fs with
  | nil => simp at h
  | cons p rest ih =>
    obtain ⟨k₀, v₀⟩ := p
    by_cases hk : k₀ = k
    · subst hk
      exact ⟨v₀, by simp [objGet]⟩
    · have h2 := h
      simp only [List.map_cons, List.mem_cons] at h2
      rcases h2 with h1 | h1
      · exact absurd h1.symm hk
      · obtain ⟨v, hv⟩ := ih h1
        exact ⟨v, by simp [objGet, hk, hv]⟩

/-- Re-assigning a field its current value is the identity. -/
theorem setField_self (d : JSValue) (k : String) (v : JSValue)
    (h : d.getField k = some v) : d.setField k v = d := by
  cases d <;> simp [JSValue.getField] at h ⊢
  case obj fs => simp [JSValue.setField, objSet_self fs k v h]

/-- A fold whose step fixes the accumulator fixes the fold. -/
theorem foldl_fixed {α β : Type} (f : α → β → α) (a : α) (l : List β)
    (h : ∀ b ∈ l, f a b = a) : l.foldl f a = a := by
  induction l with
  | nil => rfl
  | cons b rest ih =>
    rw [List.foldl_cons, h b (by simp), ih (fun b' hb' => h b' (by simp [hb']))]

/-- A well-formed section entry is left untouched by the section loop
body, with no `repaired` flag. -/
theorem repairSectionStep_wf (y sections s : JSValue) (sid : String)
    (hs : y.getField "sections" = some sections)
    (hget : sections.getField sid = some s) (hwf : wfSec s = true) :
    repairSectionStep y sid = (y, false) := by
  obtain ⟨sfs, rfl⟩ : ∃ sfs, s = .obj sfs := by
    cases s <;> simp [wfSec] at hwf ⊢
  obtain ⟨afs, ha⟩ : ∃ afs, objGet sfs "answers" = some (.obj afs) := by
    simp [wfSec] at hwf
    rcases hwf with ⟨-, hans⟩
    cases hx : objGet sfs "answers" with
    | none => rw [hx] at hans; simp [objLikeOpt] at hans
    | some v =>
      rw [hx] at hans
      cases v <;> simp [objLikeOpt] at hans ⊢
  have hga : (JSValue.obj sfs).getField "answers" = some (.obj afs) := by
    simpa [JSValue.getField] using ha
  simp only [repairSectionStep, hs, Option.getD_some, hget, hga, objLikeOpt]
  simp

/-- A well-formed year entry is returned unchanged by `repairYear`, with
no `repaired` flag. -/
theorem repairYear_wf (now k : String) (y : JSValue)
    (hwf : wfYear k y = true) : repairYear now k y = (y, false) := by
  obtain ⟨fs, rfl⟩ : ∃ fs, y = .obj fs := by
    cases y <;> simp [wfYear] at hwf ⊢
  simp only [wfYear, Bool.and_eq_true] at hwf
  obtain ⟨⟨⟨⟨⟨hid, hdn⟩, hca⟩, hlm⟩, -⟩, hsecs⟩ := hwf
  have hidT : truthyOpt (objGet fs "id") = true := by
    cases hx : objGet fs "id" with
    | none => rw [hx] at hid; simp at hid
    | some v =>
      rw [hx] at hid
      cases v <;> simp at hid
      simp [truthyOpt, JSValue.truthy, hid.2]
  have hdnT : truthyOpt (objGet fs "displayName") = true := by
    cases hx : objGet fs "displayName" with
    | none => rw [hx] at hdn; simp [nonemptyStrOpt] at hdn
    | some v =>
      rw [hx] at hdn
      cases v <;> simp [nonemptyStrOpt] at hdn
      simp [truthyOpt, JSValue.truthy, hdn]
  have hcaT : truthyOpt (objGet fs "createdAt") = true := by
    cases hx : objGet fs "createdAt" with
    | none => rw [hx] at hca; simp [nonemptyStrOpt] at hca
    | some v =>
      rw [hx] at hca
      cases v <;> simp [nonemptyStrOpt] at hca
      simp [truthyOpt, JSValue.truthy, hca]
  have hlmT : truthyOpt (objGet fs "lastModified") = true := by
    cases hx : objGet fs "lastModified" with
    | none => rw [hx] at hlm; simp [nonemptyStrOpt] at hlm
    | some v =>
      rw [hx] at hlm
      cases v <;> simp [nonemptyStrOpt] at hlm
      simp [truthyOpt, JSValue.truthy, hlm]
  obtain ⟨ss, hss, hallsec⟩ :
      ∃ ss, objGet fs "sections" = some (.obj ss) ∧
        ss.all (fun p => wfSec p.2) = true := by
    cases hx : objGet fs "sections" with
    | none => rw [hx] at hsecs; simp at hsecs
    | some v =>
      rw [hx] at hsecs
      cases v <;> simp at hsecs ⊢
      exact hsecs
  have hfs : (JSValue.obj fs).getField "sections" = some (.obj ss) := hss
  have hstep : ∀ sid ∈ ss.map (fun p => p.1),
      sectionsFoldStep (JSValue.obj fs, false) sid = (JSValue.obj fs, false) := by
    intro sid hsid
    have hmem : sid ∈ ss.map Prod.fst := hsid
    obtain ⟨s, hsget⟩ := objGet_of_mem_keys ss sid hmem
    have hsecwf : wfSec s = true := by
      have hm := objGet_is_mem ss sid s hsget
      have := List.all_eq_true.1 hallsec ⟨sid, s⟩ hm
      simpa using this
    have := repairSectionStep_wf (JSValue.obj fs) (.obj ss) s sid hfs
      (by simpa [JSValue.getField] using hsget) hsecwf
    simp [sectionsFoldStep, this]
  have hfold := foldl_fixed sectionsFoldStep (JSValue.obj fs, false)
    (ss.map (fun p => p.1)) hstep
  rw [repairYear]
  simp [backfillYear, hidT, hdnT, hcaT, hlmT, hss, JSValue.getField,
    objLikeOpt, JSValue.objKeys, hfold]

/-- An object is truthy. -/
theorem truthy_obj (fs : List (String × JSValue)) :
    (JSValue.obj fs).truthy = true := rfl

/-- `objLikeOpt` holds on a present object. -/
theorem objLikeOpt_obj (fs : List (String × JSValue)) :
    objLikeOpt (some (.obj fs)) = true := rfl

/-- Well-formed settings are object-like. -/
theorem wfSettings_objLike (o : Option JSValue) (h : wfSettings o = true) :
    objLikeOpt o = true := by
  cases o with
  | none => simp [wfSettings] at h
  | some v => cases v <;> simp [wfSettings, objLikeOpt] at h ⊢

/-- A well-formed years entry leaves the year-loop body fixed. -/
theorem yearsStep_wf (now : String) (d : JSValue)
    (ys : List (String × JSValue)) (r : Bool) (k : String) (y : JSValue)
    (hyears : d.getField "years" = some (.obj ys))
    (hget : objGet ys k = some y) (hwf : wfYear k y = true) :
    yearsStep now (d, r) k = (d, r) := by
  obtain ⟨yfs, rfl⟩ : ∃ yfs, y = .obj yfs := by
    cases y <;> simp [wfYear] at hwf ⊢
  have hrw := repairYear_wf now k (.obj yfs) hwf
  have hys : (JSValue.obj ys).getField k = some (.obj yfs) := by
    simpa [JSValue.getField] using hget
  have hsetys : (JSValue.obj ys).setField k (.obj yfs) = .obj ys :=
    setField_self _ _ _ hys
  have hsetd : d.setField "years" (.obj ys) = d := setField_self _ _ _ hyears
  simp [yearsStep, hyears, hys, objLikeOpt, hrw, hsetys, hsetd]

/-- `validateAndRepairData` is the identity (valid, no repairs, no
reports) on well-formed documents. -/
theorem validateAndRepairData_wf (now : String) (d : JSValue)
    (h : wfDoc d = true) :
    validateAndRepairData now d =
      ({ valid := true, repaired := false, data := d }, []) := by
  obtain ⟨fs, rfl⟩ : ∃ fs, d = .obj fs := by cases d <;> simp [wfDoc] at h ⊢
  obtain ⟨ys, hys, h4⟩ : ∃ ys, objGet fs "years" = some (.obj ys) ∧
      (isNumOpt (objGet fs "version") &&
       wfSettings (objGet fs "settings") &&
       ys.all (fun p => wfYear p.1 p.2) &&
       (match objGet fs "currentYear" with
        | none => true
        | some .null => true
        | some (.str k) => (k = "") || truthyOpt (objGet ys k)
        | _ => false)) = true := by
    simp only [wfDoc] at h
    cases hx : objGet fs "years" with
    | none => rw [hx] at h; simp at h
    | some v =>
      rw [hx] at h
      cases v with
      | obj ys => exact ⟨ys, rfl, by simpa using h⟩
      | null => simp at h
      | bool b => simp at h
      | num n => simp at h
      | str s => simp at h
  simp only [Bool.and_eq_true] at h4
  obtain ⟨⟨⟨hversion, hsettings⟩, hallyears⟩, hcy⟩ := h4
  have hsettingsOL : objLikeOpt (objGet fs "settings") = true :=
    wfSettings_objLike _ hsettings
  have hstep : ∀ k ∈ ys.map (fun p => p.1),
      yearsStep now (JSValue.obj fs, false) k = (JSValue.obj fs, false) := by
    intro k hk
    obtain ⟨y, hy⟩ := objGet_of_mem_keys ys k hk
    have hm := objGet_is_mem ys k y hy
    have hwfy : wfYear k y = true := by
      have := List.all_eq_true.1 hallyears ⟨k, y⟩ hm
      simpa using this
    exact yearsStep_wf now (JSValue.obj fs) ys false k y
      (by simpa [JSValue.getField] using hys) hy hwfy
  have hfold := foldl_fixed (yearsStep now) (JSValue.obj fs, false)
    (ys.map (fun p => p.1)) hstep
  rw [validateAndRepairData]
  cases hx : objGet fs "currentYear" with
  | none =>
    simp [JSValue.truthy, JSValue.jsTypeof, hversion, hsettingsOL, hys,
      JSValue.getField, objLikeOpt_obj, hx, truthyOpt, JSValue.objKeys, hfold]
  | some v =>
    rw [hx] at hcy
    cases v with
    | null =>
      simp [JSValue.truthy, JSValue.jsTypeof, hversion, hsettingsOL, hys,
        JSValue.getField, objLikeOpt_obj, hx, truthyOpt, JSValue.objKeys, hfold]
    | str k =>
      by_cases hk : k = ""
      · subst hk
        simp [JSValue.truthy, JSValue.jsTypeof, hversion, hsettingsOL, hys,
          JSValue.getField, objLikeOpt_obj, hx, truthyOpt, JSValue.objKeys,
          hfold]
      · have hlook : truthyOpt (objGet ys k) = true := by simpa [hk] using hcy
        cases hw : objGet ys k with
        | none => rw [hw] at hlook; simp [truthyOpt] at hlook
        | some w =>
          have hm := objGet_is_mem ys k w hw
          have hwfy : wfYear k w = true := by
            simpa using List.all_eq_true.1 hallyears ⟨k, w⟩ hm
          obtain ⟨wfs, rfl⟩ : ∃ wfs, w = .obj wfs := by
            cases w <;> simp [wfYear] at hwfy ⊢
          simp [JSValue.truthy, JSValue.jsTypeof, hversion, hsettingsOL, hys,
            JSValue.getField, objLikeOpt_obj, hx, truthyOpt, jsToPropertyKey,
            hk, hw, JSValue.objKeys, hfold]
    | bool b => simp at hcy
    | num n => simp at hcy
    | obj o => simp at hcy

/-- With a backend whose writes always succeed, `saveToLocalStorage`
returns `true`. -/
theorem saveToLocalStorage_ok (st : StoreState)
    (h : st.backend.setFailure = fun _ _ => none) :
    (saveToLocalStorage st).1 = true := by
  simp [saveToLocalStorage, isLocalStorageAvailable, Backend.setItem, h,
    Backend.getItem, Backend.removeItem, objGet_objSet_self]

/-- C5: export/import round-trip.  For a well-formed in-memory document
`D` whose pretty export parses back to `D`, with a backend whose writes
succeed, `importData (exportData ())` returns success and leaves the
in-memory document structurally equal to `D` (exactly — import touches no
`lastModified` field). -/
theorem c5_export_import_round_trip (now : String) (st : StoreState)
    (D : JSValue) (_hD : st.storageData = some D) (hwf : wfDoc D = true)
    (hparse : jsonParse (exportData st) = some D)
    (hok : st.backend.setFailure = fun _ _ => none) :
    (importData now (exportData st) st).1.1 = true ∧
    (importData now (exportData st) st).2.storageData = some D := by
  have hid := validateAndRepairData_wf now D hwf
  have hsave : (saveToLocalStorage { st with storageData := some D }).1 =
      true := saveToLocalStorage_ok _ hok
  simp [importData, hparse, hid, hsave, saveToLocalStorage_storageData]

/-- A concrete well-formed document with one year, one section, one
answer. -/
def rootDocW : JSValue :=
  .obj [("version", .num 1), ("currentYear", .str "2024-2025"),
    ("settings", .obj [("theme", .str "dark"), ("fontSize", .str "medium"),
      ("markdownPreview", .str "onBlur")]),
    ("years", .obj [("2024-2025", .obj [("id", .str "2024-2025"),
      ("displayName", .str "2024 to 2025"),
      ("createdAt", .str "2024-12-31T00:00:00.000Z"),
      ("lastModified", .str "2024-12-31T00:00:00.000Z"),
      ("currentSection", .str "intro"),
      ("sections", .obj [("pastYear", .obj [("completed", .bool false),
        ("answers", .obj [("a", .str "hello world")])])])])])]

/-- A store holding `rootDocW` over an always-succeeding backend. -/
def roundTripState : StoreState :=
  { backend := { store := [], setFailure := fun _ _ => none, writes := [] },
    storageData := some rootDocW, reports := [], deadline := none }

set_option maxRecDepth 100000 in
/-- Witness for C5 at the concrete document `rootDocW`. -/
theorem c5_witness :
    (importData "T" (exportData roundTripState) roundTripState).1.1 = true ∧
    (importData "T" (exportData roundTripState) roundTripState).2.storageData
      = some rootDocW :=
  c5_export_import_round_trip "T" roundTripState rootDocW rfl rfl rfl rfl

/-! ## The flagged coercions of `validateAndRepairData` (claim C3) -/

/-- The `version` coercion does not fire. -/
def goodVersion (d : JSValue) : Bool :=
  isNumOpt (d.getField "version")

/-- The `settings` coercion does not fire. -/
def goodSettings (d : JSValue) : Bool :=
  objLikeOpt (d.getField "settings")

/-- The `years` coercion does not fire. -/
def goodYears (d : JSValue) : Bool :=
  objLikeOpt (d.getField "years")

/-- The `currentYear` reassignment does not fire: `currentYear` is falsy,
or its entry lookup is truthy. -/
def goodCurrentYear (d : JSValue) : Bool :=
  !(truthyOpt (d.getField "currentYear")) ||
    truthyOpt (((d.getField "years").getD .null).getField
      (jsToPropertyKey ((d.getField "currentYear").getD .null)))

/-- Neither section coercion fires on this section entry: it is an object
whose `answers` is an object. -/
def goodSec (s : JSValue) : Bool :=
  match s with
  | .obj fs => objLikeOpt (objGet fs "answers")
  | _ => false

/-- No flagged coercion fires inside this year entry: its `sections` is an
object all of whose entries are good sections. -/
def goodYearEntry (y : JSValue) : Bool :=
  match y.getField "sections" with
  | some (.obj ss) =>
    (ss.map (fun p => p.1)).all
      (fun sid => goodSec (((JSValue.obj ss).getField sid).getD .null))
  | _ => false

/-- The year entry stored at `k` (`data.years[k]`). -/
def yearEntryAt (d : JSValue) (k : String) : Option JSValue :=
  ((d.getField "years").getD .null).getField k

/-- The section entry stored at `sid` (`year.sections[sid]`). -/
def secEntryAt (y : JSValue) (sid : String) : Option JSValue :=
  ((y.getField "sections").getD .null).getField sid

/-- The year loop neither deletes nor flags any entry: every entry (looked
up JavaScript-style, first match) is an object whose contents trigger no
flagged coercion. -/
def allYearsGood (d : JSValue) : Bool :=
  match d.getField "years" with
  | some (.obj ys) =>
    (ys.map (fun p => p.1)).all (fun k =>
      objLikeOpt (yearEntryAt d k) &&
        goodYearEntry ((yearEntryAt d k).getD .null))
  | _ => false

/-- Setting one field leaves the others unchanged. -/
theorem getField_setField_ne (v : JSValue) (k k' : String) (x : JSValue)
    (h : k' ≠ k) : (v.setField k x).getField k' = v.getField k' := by
  cases v <;> simp [JSValue.setField, JSValue.getField]
  case obj fs => exact objGet_objSet_ne fs k k' x h

/-- The silent backfills do not touch the `sections` field. -/
theorem backfillYear_sections (now k : String) (y : JSValue) :
    (backfillYear now k y).getField "sections" = y.getField "sections" := by
  have step : ∀ (z x : JSValue) (c : Prop) (_ : Decidable c) (kk : String),
      kk ≠ "sections" →
      (if c then z else z.setField kk x).getField "sections" =
        z.getField "sections" := by
    intro z x c hc kk hkk
    split
    · rfl
    · exact getField_setField_ne z kk "sections" x (Ne.symm hkk)
  simp only [backfillYear]
  rw [step _ _ _ _ _ (by decide), step _ _ _ _ _ (by decide),
    step _ _ _ _ _ (by decide), step _ _ _ _ _ (by decide)]

/-- A true `repaired` flag survives the section loop. -/
theorem sectionsFold_true (sids : List String) :
    ∀ y : JSValue, (sids.foldl sectionsFoldStep (y, true)).2 = true := by
  induction sids with
  | nil => intro y; rfl
  | cons sid rest ih =>
    intro y
    rw [List.foldl_cons]
    have : sectionsFoldStep (y, true) sid =
        ((repairSectionStep y sid).1, true) := by
      simp [sectionsFoldStep]
    rw [this]
    exact ih _

/-- A true `repaired` flag survives the year loop. -/
theorem yearsFold_true (now : String) (keys : List String) :
    ∀ d : JSValue, (keys.foldl (yearsStep now) (d, true)).2 = true := by
  induction keys with
  | nil => intro d; rfl
  | cons k0 rest ih =>
    intro d
    rw [List.foldl_cons]
    by_cases h : objLikeOpt (yearEntryAt d k0) = true
    · have : yearsStep now (d, true) k0 =
          ((d.setField "years"
            (((d.getField "years").getD .null).setField k0
              (repairYear now k0 ((yearEntryAt d k0).getD .null)).1)), true) := by
        simp [yearsStep, yearEntryAt] at h ⊢
        simp [h]
      rw [this]
      exact ih _
    · have : yearsStep now (d, true) k0 =
          ((d.setField "years"
            (((d.getField "years").getD .null).delField k0)), true) := by
        simp [yearsStep, yearEntryAt] at h ⊢
        simp [h]
      rw [this]
      exact ih _

/-- An unflagged section-loop body is the identity, and pins both section
conditions. -/
theorem repairSectionStep_false_inv (y y1 : JSValue) (sid : String)
    (h : repairSectionStep y sid = (y1, false)) :
    y1 = y ∧ objLikeOpt (secEntryAt y sid) = true ∧
    objLikeOpt (((secEntryAt y sid).getD .null).getField "answers") = true := by
  by_cases h1 : objLikeOpt (secEntryAt y sid) = true
  · by_cases h2 : objLikeOpt
        (((secEntryAt y sid).getD .null).getField "answers") = true
    · refine ⟨?_, h1, h2⟩
      simp [repairSectionStep, secEntryAt] at h h1 h2
      simp [h1, h2] at h
      exact h.symm
    · exfalso
      simp [repairSectionStep, secEntryAt] at h h1 h2
      simp [h1, h2] at h
  · exfalso
    simp [repairSectionStep, secEntryAt] at h h1
    simp [h1] at h

/-- An unflagged section loop is the identity and pins every visited
section entry. -/
theorem sectionsFold_false (sids : List String) :
    ∀ y yr : JSValue, sids.foldl sectionsFoldStep (y, false) = (yr, false) →
    yr = y ∧ ∀ sid ∈ sids, repairSectionStep y sid = (y, false) := by
  induction sids with
  | nil =>
    intro y yr h
    simp at h
    exact ⟨h.symm, by simp⟩
  | cons sid0 rest ih =>
    intro y yr h
    rw [List.foldl_cons] at h
    rcases hr : repairSectionStep y sid0 with ⟨y1, r1⟩
    have hstep : sectionsFoldStep (y, false) sid0 = (y1, r1) := by
      simp [sectionsFoldStep, hr]
    rw [hstep] at h
    cases r1 with
    | true =>
      have := sectionsFold_true rest y1
      rw [h] at this
      simp at this
    | false =>
      obtain ⟨rfl, -, -⟩ := repairSectionStep_false_inv y y1 sid0 hr
      obtain ⟨hyr, hall⟩ := ih y1 yr h
      refine ⟨hyr, fun sid hsid => ?_⟩
      rcases List.mem_cons.1 hsid with rfl | hsid'
      · exact hr
      · exact hall sid hsid'

/-- An unflagged `repairYear` certifies `goodYearEntry` of the original
entry. -/
theorem repairYear_false_good (now k : String) (y : JSValue)
    (h : (repairYear now k y).2 = false) : goodYearEntry y = true := by
  by_cases hsec : objLikeOpt ((backfillYear now k y).getField "sections") = true
  · obtain ⟨ss, hss⟩ : ∃ ss,
        (backfillYear now k y).getField "sections" = some (.obj ss) := by
      cases hx : (backfillYear now k y).getField "sections" with
      | none => rw [hx] at hsec; simp [objLikeOpt] at hsec
      | some v =>
        rw [hx] at hsec
        cases v <;> simp [objLikeOpt] at hsec ⊢
    rcases hfold : (ss.map (fun p => p.1)).foldl sectionsFoldStep
        (backfillYear now k y, false) with ⟨yr, rr⟩
    have hrr : rr = false := by
      rw [repairYear] at h
      simp [hss, objLikeOpt_obj, JSValue.objKeys, hfold] at h
      exact h
    rw [hrr] at hfold
    obtain ⟨-, hall⟩ := sectionsFold_false _ _ _ hfold
    have hsecs_y : y.getField "sections" = some (.obj ss) :=
      (backfillYear_sections now k y) ▸ hss
    rw [goodYearEntry, hsecs_y]
    rw [List.all_eq_true]
    intro sid hsid
    obtain ⟨-, h1, h2⟩ :=
      repairSectionStep_false_inv _ _ sid (hall sid hsid)
    rw [secEntryAt, hss, Option.getD_some] at h1 h2
    cases hx : (JSValue.obj ss).getField sid with
    | none => rw [hx] at h1; simp [objLikeOpt] at h1
    | some s =>
      rw [hx] at h1 h2
      cases s with
      | obj sfs =>
        simp only [Option.getD_some, JSValue.getField] at h2 ⊢
        simp [goodSec, h2]
      | null => simp [objLikeOpt] at h1
      | bool b => simp [objLikeOpt] at h1
      | num n => simp [objLikeOpt] at h1
      | str s2 => simp [objLikeOpt] at h1
  · exfalso
    have hsec' : objLikeOpt ((backfillYear now k y).getField "sections") =
        false := by
      revert hsec
      cases objLikeOpt ((backfillYear now k y).getField "sections") <;> simp
    rw [repairYear] at h
    simp [hsec', sectionsFold_true] at h

/-- An unflagged year-loop body pins the entry's conditions and only
rewrites the `years` field at its own key. -/
theorem yearsStep_false_inv (now : String) (d d1 : JSValue) (k0 : String)
    (h : yearsStep now (d, false) k0 = (d1, false)) :
    objLikeOpt (yearEntryAt d k0) = true ∧
    (repairYear now k0 ((yearEntryAt d k0).getD .null)).2 = false ∧
    ∀ k, k ≠ k0 → yearEntryAt d1 k = yearEntryAt d k := by
  simp only [yearEntryAt]
  by_cases hol : objLikeOpt
      (((d.getField "years").getD .null).getField k0) = true
  · rcases hr : repairYear now k0
        ((((d.getField "years").getD .null).getField k0).getD .null)
      with ⟨y', r'⟩
    have hstep : yearsStep now (d, false) k0 =
        (d.setField "years"
          (((d.getField "years").getD .null).setField k0 y'), r') := by
      simp [yearsStep] at hol ⊢
      simp [hol, hr]
    rw [hstep] at h
    have hd1 : d.setField "years"
        (((d.getField "years").getD .null).setField k0 y') = d1 :=
      congrArg Prod.fst h
    have hr2 : r' = false := congrArg Prod.snd h
    obtain ⟨ys, hys⟩ : ∃ ys, (d.getField "years").getD .null = .obj ys := by
      cases hy0 : (d.getField "years").getD .null with
      | obj ys => exact ⟨ys, rfl⟩
      | null => rw [hy0] at hol; simp [JSValue.getField, objLikeOpt] at hol
      | bool b => rw [hy0] at hol; simp [JSValue.getField, objLikeOpt] at hol
      | num n => rw [hy0] at hol; simp [JSValue.getField, objLikeOpt] at hol
      | str s => rw [hy0] at hol; simp [JSValue.getField, objLikeOpt] at hol
    obtain ⟨fs, rfl⟩ : ∃ fs, d = .obj fs := by
      cases d with
      | obj fs => exact ⟨fs, rfl⟩
      | null => simp [JSValue.getField] at hys
      | bool b => simp [JSValue.getField] at hys
      | num n => simp [JSValue.getField] at hys
      | str s => simp [JSValue.getField] at hys
    refine ⟨hol, by exact hr2, fun k hk => ?_⟩
    rw [← hd1, hys]
    simp only [JSValue.setField, JSValue.getField, objGet_objSet_self,
      Option.getD_some]
    rw [objGet_objSet_ne ys k0 k y' hk]
  · exfalso
    have hstep : yearsStep now (d, false) k0 =
        (d.setField "years"
          (((d.getField "years").getD .null).delField k0), true) := by
      simp [yearsStep] at hol ⊢
      simp [hol]
    rw [hstep] at h
    simp at h

/-- An unflagged year loop pins every visited entry of the *original*
document: the entry is an object and repairs without flag. -/
theorem yearsFold_false (now : String) (keys : List String) :
    ∀ d dr : JSValue,
    keys.foldl (yearsStep now) (d, false) = (dr, false) →
    ∀ k ∈ keys, objLikeOpt (yearEntryAt d k) = true ∧
      (repairYear now k ((yearEntryAt d k).getD .null)).2 = false := by
  induction keys with
  | nil =>
    intro d dr h k hk
    simp at hk
  | cons k0 rest ih =>
    intro d dr h k hk
    rw [List.foldl_cons] at h
    rcases hstep : yearsStep now (d, false) k0 with ⟨d1, r1⟩
    rw [hstep] at h
    cases r1 with
    | true =>
      have := yearsFold_true now rest d1
      rw [h] at this
      simp at this
    | false =>
      obtain ⟨hol, hflag, htrans⟩ := yearsStep_false_inv now d d1 k0 hstep
      rcases List.mem_cons.1 hk with rfl | hk'
      · exact ⟨hol, hflag⟩
      · by_cases hkk : k = k0
        · subst hkk
          exact ⟨hol, hflag⟩
        · have h2 := ih d1 dr h k hk'
          rw [htrans k hkk] at h2
          exact h2

/-- C3 (amended): `validateAndRepairData` returns `valid = true` for
every non-null object input, and `repaired = true` whenever any flagged
coercion fired — those are all the coercions except the per-year
`id`/`displayName`/`createdAt`/`lastModified` backfills, which the source
applies without setting the flag.  Stated in contrapositive form: an
unflagged run certifies that none of the flagged coercions was needed on
the original input. -/
theorem c3_amended_flag_contract (now : String) (d : JSValue)
    (h1 : d.truthy = true) (h2 : d.jsTypeof = "object") :
    (validateAndRepairData now d).1.valid = true ∧
    ((validateAndRepairData now d).1.repaired = false →
      goodVersion d = true ∧ goodSettings d = true ∧ goodYears d = true ∧
      goodCurrentYear d = true ∧ allYearsGood d = true) := by
  obtain ⟨fs, rfl⟩ : ∃ fs, d = .obj fs := by
    cases d with
    | obj fs => exact ⟨fs, rfl⟩
    | null => simp [JSValue.truthy] at h1
    | bool b => simp [JSValue.jsTypeof] at h2
    | num n => simp [JSValue.jsTypeof] at h2
    | str s => simp [JSValue.jsTypeof] at h2
  refine ⟨by rw [validateAndRepairData]; simp [JSValue.truthy, JSValue.jsTypeof], ?_⟩
  intro hrep
  by_cases bv : isNumOpt (objGet fs "version") = true
  swap
  · exfalso
    rw [validateAndRepairData] at hrep
    simp [JSValue.truthy, JSValue.jsTypeof, JSValue.getField, bv] at hrep
  by_cases bs : objLikeOpt (objGet fs "settings") = true
  swap
  · exfalso
    rw [validateAndRepairData] at hrep
    simp [JSValue.truthy, JSValue.jsTypeof, JSValue.getField, bv, bs] at hrep
  by_cases by' : objLikeOpt (objGet fs "years") = true
  swap
  · exfalso
    rw [validateAndRepairData] at hrep
    simp [JSValue.truthy, JSValue.jsTypeof, JSValue.getField, bv, bs, by']
      at hrep
  obtain ⟨ys, hys⟩ : ∃ ys, objGet fs "years" = some (.obj ys) := by
    cases hx : objGet fs "years" with
    | none => rw [hx] at by'; simp [objLikeOpt] at by'
    | some v =>
      rw [hx] at by'
      cases v <;> simp [objLikeOpt] at by' ⊢
  by_cases bc : (truthyOpt (objGet fs "currentYear") = true ∧
      truthyOpt (objGet ys
        (jsToPropertyKey ((objGet fs "currentYear").getD .null))) = false)
  · exfalso
    obtain ⟨bc1, bc2⟩ := bc
    rw [validateAndRepairData] at hrep
    simp [JSValue.truthy, JSValue.jsTypeof, JSValue.getField, bv, bs, by',
      hys, objLikeOpt_obj, bc1, bc2] at hrep
  · rcases hfold : (ys.map (fun p => p.1)).foldl (yearsStep now)
        (JSValue.obj fs, false) with ⟨dr, rr⟩
    have hrr : rr = false := by
      rw [validateAndRepairData] at hrep
      simp [JSValue.truthy, JSValue.jsTypeof, JSValue.getField, bv, bs, by',
        hys, objLikeOpt_obj, bc, JSValue.objKeys, hfold] at hrep
      exact hrep
    rw [hrr] at hfold
    have hkeys := yearsFold_false now (ys.map (fun p => p.1))
      (JSValue.obj fs) dr hfold
    have hgcy : goodCurrentYear (.obj fs) = true := by
      rw [goodCurrentYear]
      by_cases bt : truthyOpt (objGet fs "currentYear") = true
      · have hB : truthyOpt (objGet ys
            (jsToPropertyKey ((objGet fs "currentYear").getD .null))) =
              true := by
          by_contra hB
          refine bc ⟨bt, ?_⟩
          revert hB
          cases truthyOpt (objGet ys
            (jsToPropertyKey ((objGet fs "currentYear").getD .null))) <;> simp
        simp [JSValue.getField, hys, hB]
      · have bt' : truthyOpt (objGet fs "currentYear") = false := by
          revert bt
          cases truthyOpt (objGet fs "currentYear") <;> simp
        simp [JSValue.getField, bt']
    refine ⟨by simpa [goodVersion, JSValue.getField] using bv,
      by simpa [goodSettings, JSValue.getField] using bs,
      by simpa [goodYears, JSValue.getField] using by', hgcy, ?_⟩
    rw [allYearsGood]
    simp only [JSValue.getField, hys]
    rw [List.all_eq_true]
    intro k hk
    obtain ⟨hol, hflag⟩ := hkeys k hk
    have hgood := repairYear_false_good now k
      ((yearEntryAt (JSValue.obj fs) k).getD .null) hflag
    simp [hol, hgood]

/-- An input whose only coercions are the four silent year backfills:
everything the flag tracks is already in place, but the year entry lacks
`id`, `displayName`, `createdAt` and `lastModified`. -/
def backfillInput : JSValue :=
  .obj [("version", .num 1), ("settings", .obj []), ("currentYear", .null),
        ("years", .obj [("y", .obj [("sections", .obj [])])])]

/-- C3 counterexample: on `backfillInput` the id/displayName/createdAt/
lastModified backfills fire (the year entry gains an `id` it did not
have), yet `repaired` is `false` — refuting "repaired = true whenever any
coercion fired, including backfilling id/displayName/createdAt/
lastModified". -/
theorem c3_counterexample_silent_backfills :
    (validateAndRepairData "T" backfillInput).1.repaired = false ∧
    (validateAndRepairData "T" backfillInput).1.valid = true ∧
    ((((backfillInput.getField "years").getD .null).getField "y").getD
      .null).getField "id" = none ∧
    (((((validateAndRepairData "T" backfillInput).1.data.getField
      "years").getD .null).getField "y").getD .null).getField "id" =
      some (.str "y") :=
  ⟨rfl, rfl, rfl, rfl⟩

/-- Witness for C3's amended theorem at the concrete default document
(all hypotheses discharged by evaluation). -/
theorem c3_witness :
    (validateAndRepairData "T" getDefaultData).1.valid = true ∧
    goodVersion getDefaultData = true ∧ allYearsGood getDefaultData = true := by
  have h := c3_amended_flag_contract "T" getDefaultData rfl rfl
  exact ⟨h.1, (h.2 rfl).1, (h.2 rfl).2.2.2.2⟩

/-! ## Debounce coalescing (claim C8) -/

/-- The answer value stored at `years[yearId].sections[sectionId]
.answers[fieldId]`. -/
def answerAt (d : JSValue) (yearId sectionId fieldId : String) :
    Option JSValue :=
  let years := (d.getField "years").getD .null
  let y := (years.getField yearId).getD .null
  let secs := (y.getField "sections").getD .null
  let s := (secs.getField sectionId).getD .null
  ((s.getField "answers").getD .null).getField fieldId

/-- The document shape on which a `saveAnswer` burst runs without
throwing: an object document with object `years`, an object entry at
`yearId` with object `sections`, and a section at `sectionId` that is
absent, falsy, or an object with an object `answers`. -/
def BurstDoc (d : JSValue) (yearId sectionId : String) : Prop :=
  ∃ df ym yf sf, d = .obj df ∧ objGet df "years" = some (.obj ym) ∧
    objGet ym yearId = some (.obj yf) ∧
    objGet yf "sections" = some (.obj sf) ∧
    (match objGet sf sectionId with
     | none => True
     | some s => s.truthy = false ∨
         ∃ sfs af, s = .obj sfs ∧ objGet sfs "answers" = some (.obj af))

/-- The times of a burst tail, relative to the previous call at `tl`:
each call is no earlier than its predecessor and strictly less than
300 ms after it. -/
def TimeOK : Nat → List (Nat × JSValue) → Prop
  | _, [] => True
  | tl, (t, _) :: rest => tl ≤ t ∧ t < tl + 300 ∧ TimeOK t rest

/-- One `saveAnswer` call on a burst-ready document succeeds, modifies
only the in-memory document and the debounce deadline, preserves the
shape, and stores the given value. -/
theorem saveAnswer_step (t : Nat) (yearId sectionId fieldId : String)
    (v : JSValue) (st : StoreState) (d : JSValue)
    (hd : st.storageData = some d) (hdoc : BurstDoc d yearId sectionId) :
    ∃ d', saveAnswer t yearId sectionId fieldId v st =
        .ok { st with storageData := some d', deadline := some (t + 300) } ∧
      BurstDoc d' yearId sectionId ∧
      answerAt d' yearId sectionId fieldId = some v := by
  obtain ⟨df, ym, yf, sf, rfl, hy, hyr, hsf, hsec⟩ := hdoc
  have hobj : ∀ (fs : List (String × JSValue)) (k : String),
      (JSValue.obj fs).getField k = objGet fs k := fun _ _ => rfl
  -- the two branches share the post-state construction
  have mkGoal : ∀ (sf' : List (String × JSValue))
      (ss af : List (String × JSValue)),
      objGet sf' sectionId = some (.obj ss) →
      objGet ss "answers" = some (.obj af) →
      ∃ d', JSValue.obj (objSet df "years"
          (.obj (objSet ym yearId
            (.obj (objSet (objSet yf "sections"
              (.obj (objSet sf' sectionId
                (.obj (objSet ss "answers"
                  (.obj (objSet af fieldId v)))))))
              "lastModified" (.str (isoClock t))))))) = d' ∧
        BurstDoc d' yearId sectionId ∧
        answerAt d' yearId sectionId fieldId = some v := by
    intro sf' ss af hss hans
    refine ⟨_, rfl, ?_, ?_⟩
    · refine ⟨objSet df "years" (.obj (objSet ym yearId
          (.obj (objSet (objSet yf "sections" (.obj (objSet sf' sectionId
            (.obj (objSet ss "answers" (.obj (objSet af fieldId v)))))))
            "lastModified" (.str (isoClock t)))))),
        objSet ym yearId (.obj (objSet (objSet yf "sections"
          (.obj (objSet sf' sectionId (.obj (objSet ss "answers"
            (.obj (objSet af fieldId v))))))) "lastModified"
            (.str (isoClock t)))),
        objSet (objSet yf "sections" (.obj (objSet sf' sectionId
          (.obj (objSet ss "answers" (.obj (objSet af fieldId v)))))))
          "lastModified" (.str (isoClock t)),
        objSet sf' sectionId (.obj (objSet ss "answers"
          (.obj (objSet af fieldId v)))),
        rfl, objGet_objSet_self _ _ _, objGet_objSet_self _ _ _, ?_, ?_⟩
      · rw [objGet_objSet_ne _ _ _ _ (by decide)]
        exact objGet_objSet_self _ _ _
      · rw [objGet_objSet_self]
        exact Or.inr ⟨_, _, rfl, objGet_objSet_self _ _ _⟩
    · rw [answerAt]
      simp only [hobj, objGet_objSet_self, Option.getD_some]
      rw [objGet_objSet_ne _ _ _ _ (by decide), objGet_objSet_self]
      simp only [hobj, objGet_objSet_self, Option.getD_some]
  cases hs : objGet sf sectionId with
  | none =>
    -- section absent: created fresh
    obtain ⟨d', hd', hdoc', hans'⟩ := mkGoal (objSet sf sectionId freshSection)
      [("completed", .bool false), ("answers", .obj [])] []
      (objGet_objSet_self _ _ _) rfl
    refine ⟨d', ?_, hdoc', hans'⟩
    rw [← hd']
    simp [saveAnswer, hd, hobj, hy, hyr, hsf, hs, JSValue.isNull, truthyOpt,
      JSValue.truthy, freshSection, JSValue.setField, debouncedSave,
      objGet_objSet_self, objGet]
  | some s =>
    rw [hs] at hsec
    by_cases hst : s.truthy = true
    · obtain ⟨sfs, af, rfl, hans⟩ : ∃ sfs af, s = .obj sfs ∧
          objGet sfs "answers" = some (.obj af) := by
        rcases hsec with hfal | h2
        · rw [hst] at hfal; cases hfal
        · exact h2
      obtain ⟨d', hd', hdoc', hans'⟩ := mkGoal sf sfs af hs hans
      refine ⟨d', ?_, hdoc', hans'⟩
      rw [← hd']
      simp [saveAnswer, hd, hobj, hy, hyr, hsf, hs, JSValue.isNull, truthyOpt,
        JSValue.truthy, hans, JSValue.setField, debouncedSave]
    · have hst' : s.truthy = false := by
        revert hst
        cases s.truthy <;> simp
      obtain ⟨d', hd', hdoc', hans'⟩ := mkGoal (objSet sf sectionId freshSection)
        [("completed", .bool false), ("answers", .obj [])] []
        (objGet_objSet_self _ _ _) rfl
      refine ⟨d', ?_, hdoc', hans'⟩
      rw [← hd']
      simp [saveAnswer, hd, hobj, hy, hyr, hsf, hs, JSValue.isNull, truthyOpt,
        truthy_obj, hst', freshSection, JSValue.setField, debouncedSave,
        objGet_objSet_self, objGet]

/-- The last element of a list, with a default for the empty list. -/
def lastD {α : Type} (a : α) : List α → α
  | [] => a
  | x :: xs => lastD x xs

/-- During a burst tail (each call strictly inside the previous call's
300 ms window), no timer fires: every call just updates the document and
re-arms the timer; the backend sees nothing. -/
theorem burst_tail (yearId sectionId fieldId : String) :
    ∀ (calls : List (Nat × JSValue)) (tl : Nat) (st : StoreState)
      (d vl : JSValue),
    st.storageData = some d → BurstDoc d yearId sectionId →
    answerAt d yearId sectionId fieldId = some vl →
    st.deadline = some (tl + 300) →
    TimeOK tl calls →
    ∃ d', calls.foldl (saveAnswerEvent yearId sectionId fieldId) (.ok st) =
        .ok { st with
              storageData := some d',
              deadline :=
                some ((lastD tl (calls.map Prod.fst)) + 300) } ∧
      BurstDoc d' yearId sectionId ∧
      answerAt d' yearId sectionId fieldId =
        some (lastD vl (calls.map Prod.snd)) := by
  intro calls
  induction calls with
  | nil =>
    intro tl st d vl hd hdoc hans hdl _
    refine ⟨d, ?_, hdoc, hans⟩
    cases st with
    | mk backend storageData reports deadline =>
      simp only [List.foldl_nil, List.map_nil, lastD]
      simp only at hd hdl
      rw [hd, hdl]
  | cons c rest ih =>
    intro tl st d vl hd hdoc hans hdl htime
    obtain ⟨t, v⟩ := c
    obtain ⟨ht1, ht2, ht3⟩ := htime
    rw [List.foldl_cons]
    have hfire : fireDue t st = st := by
      rw [fireDue, hdl]
      simp [Nat.not_le.2 ht2]
    have hevent : saveAnswerEvent yearId sectionId fieldId (.ok st) (t, v) =
        saveAnswer t yearId sectionId fieldId v st := by
      simp [saveAnswerEvent, hfire]
    rw [hevent]
    obtain ⟨d1, hstep, hdoc1, hans1⟩ :=
      saveAnswer_step t yearId sectionId fieldId v st d hd hdoc
    rw [hstep]
    obtain ⟨d', hfold, hdoc', hans'⟩ := ih t
      { st with storageData := some d1, deadline := some (t + 300) } d1 v
      rfl hdoc1 hans1 rfl ht3
    refine ⟨d', ?_, hdoc', ?_⟩
    · rw [hfold]
      simp [lastD]
    · simpa [lastD] using hans'

/-- With an always-succeeding backend, one `saveToLocalStorage` performs
exactly the probe write plus one record write, serializing the current
in-memory document. -/
theorem saveToLocalStorage_ok_state (st : StoreState)
    (h : st.backend.setFailure = fun _ _ => none) :
    saveToLocalStorage st =
      (true,
        { st with
          backend :=
            { store := objSet (objDel (objSet st.backend.store TEST_KEY
                "test") TEST_KEY) STORAGE_KEY
                (jsStringify (st.storageData.getD .null)),
              setFailure := st.backend.setFailure,
              writes := st.backend.writes ++ [(TEST_KEY, "test")] ++
                [(STORAGE_KEY, jsStringify (st.storageData.getD .null))] } }) := by
  simp [saveToLocalStorage, isLocalStorageAvailable, Backend.setItem, h,
    Backend.getItem, Backend.removeItem, objGet_objSet_self]

/-- C8: debounce coalescing.  For any burst of `saveAnswer` calls to one
field — each call less than 300 ms after the previous one — starting with
no pending timer, exactly one backend record write occurs once the clock
passes the last call's deadline, and it serializes the in-memory document
at fire time, which holds the value of the last call of the burst. -/
theorem c8_debounce_coalesces (yearId sectionId fieldId : String)
    (t0 : Nat) (v0 : JSValue) (rest : List (Nat × JSValue)) (end_ : Nat)
    (st : StoreState) (d : JSValue)
    (hd : st.storageData = some d) (hdoc : BurstDoc d yearId sectionId)
    (hdl : st.deadline = none)
    (hok : st.backend.setFailure = fun _ _ => none)
    (htime : TimeOK t0 rest)
    (hend : lastD t0 (rest.map Prod.fst) + 300 ≤ end_) :
    ∃ d', runBurst yearId sectionId fieldId ((t0, v0) :: rest) end_ st =
        .ok { st with
              backend :=
                { store := objSet (objDel (objSet st.backend.store TEST_KEY
                    "test") TEST_KEY) STORAGE_KEY (jsStringify d'),
                  setFailure := st.backend.setFailure,
                  writes := st.backend.writes ++ [(TEST_KEY, "test")] ++
                    [(STORAGE_KEY, jsStringify d')] },
              storageData := some d', deadline := none } ∧
      answerAt d' yearId sectionId fieldId =
        some (lastD v0 (rest.map Prod.snd)) ∧
      ((st.backend.writes ++ [(TEST_KEY, "test")] ++
          [(STORAGE_KEY, jsStringify d')]).filter
        (fun p => p.1 == STORAGE_KEY)) =
      (st.backend.writes.filter (fun p => p.1 == STORAGE_KEY)) ++
        [(STORAGE_KEY, jsStringify d')] := by
  have hfire0 : fireDue t0 st = st := by
    rw [fireDue, hdl]
  have hevent : saveAnswerEvent yearId sectionId fieldId (.ok st) (t0, v0) =
      saveAnswer t0 yearId sectionId fieldId v0 st := by
    simp [saveAnswerEvent, hfire0]
  obtain ⟨d1, hstep, hdoc1, hans1⟩ :=
    saveAnswer_step t0 yearId sectionId fieldId v0 st d hd hdoc
  obtain ⟨d', hfold, hdoc', hans'⟩ := burst_tail yearId sectionId fieldId
    rest t0 { st with storageData := some d1, deadline := some (t0 + 300) }
    d1 v0 rfl hdoc1 hans1 rfl htime
  refine ⟨d', ?_, ?_, ?_⟩
  · rw [runBurst, List.foldl_cons, hevent, hstep, hfold]
    have hfireEnd : fireDue end_
        { st with
          storageData := some d',
          deadline := some (lastD t0 (rest.map Prod.fst) + 300) } =
        (saveToLocalStorage
          { st with storageData := some d', deadline := none }).2 := by
      rw [fireDue]
      simp [hend]
    simp only []
    rw [hfireEnd, saveToLocalStorage_ok_state
      { st with storageData := some d', deadline := none } hok]
    rfl
  · simpa [lastD] using hans'
  · have h1 : ((TEST_KEY, "test").1 == STORAGE_KEY) = false := by decide
    simp [List.filter_append, h1]

/-- A document ready for a burst: one year `"y"` with empty `sections`. -/
def docBurst : JSValue :=
  .obj [("currentYear", .str "y"),
        ("years", .obj [("y", .obj [("id", .str "y"),
          ("sections", .obj [])])])]

/-- A store holding `docBurst`, no pending timer, always-succeeding
backend. -/
def stBurst : StoreState :=
  { backend := { store := [], setFailure := fun _ _ => none, writes := [] },
    storageData := some docBurst, reports := [], deadline := none }

/-- Witness for C8 at the spec's concrete scenario: three `saveAnswer`
calls within 300 ms produce exactly one record write, holding the third
value. -/
theorem c8_witness :
    ∃ d' st', runBurst "y" "x" "a"
        [(1000, .str "h"), (1100, .str "he"), (1200, .str "hel")] 1500
        stBurst = .ok st' ∧
      st'.backend.writes.filter (fun p => p.1 == STORAGE_KEY) =
        [(STORAGE_KEY, jsStringify d')] ∧
      answerAt d' "y" "x" "a" = some (.str "hel") := by
  obtain ⟨d', heq, hans, hfilt⟩ := c8_debounce_coalesces "y" "x" "a"
    1000 (.str "h") [(1100, .str "he"), (1200, .str "hel")] 1500
    stBurst docBurst rfl
    ⟨_, _, _, _, rfl, rfl, rfl, rfl, trivial⟩ rfl rfl
    ⟨by decide, by decide, by decide, by decide, trivial⟩ (by decide)
  refine ⟨d', _, heq, ?_, by simpa using hans⟩
  simpa using hfilt
